import Mathlib

/- Verification development for the rustflight call-coalescing cache
   (src/lib.rs and src/py_waiter.rs).

   Shallow embedding conventions:
   - Opaque payload values (the Rust generic V and Py<PyAny>) are modelled
     as Nat.
   - A Box<dyn Any + Send + Sync> value is modelled as a payload together
     with an explicit runtime type tag; downcast succeeds exactly when the
     tag requested by the reader matches the stored tag.
   - HashMap<String, _> is modelled as an association list with
     insert-or-replace semantics.
   - Concurrent executions are modelled as explicit interleavings of atomic
     steps over a shared configuration; a schedule picks which thread (or
     which eviction) performs the next step.  Splitting a critical section
     into several atomic steps only enlarges the set of interleavings, so
     safety invariants proved over all schedules also hold for the real,
     more synchronised program. -/

/-- Association list lookup, modelling HashMap::get. -/
def alookup {α : Type} : List (String × α) → String → Option α
  | [], _ => none
  | (k, v) :: rest, key => if k = key then some v else alookup rest key

/-- Association list insert-or-replace, modelling HashMap::insert. -/
def ainsert {α : Type} : List (String × α) → String → α → List (String × α)
  | [], key, v => [(key, v)]
  | (k, w) :: rest, key, v =>
      if k = key then (k, v) :: rest else (k, w) :: ainsert rest key v

/-- Association list removal, modelling HashMap::remove. -/
def aremove {α : Type} : List (String × α) → String → List (String × α)
  | [], _ => []
  | (k, w) :: rest, key => if k = key then rest else (k, w) :: aremove rest key

lemma mem_ainsert {α : Type} (p : String × α) :
    ∀ (l : List (String × α)) (key : String) (v : α),
      p ∈ ainsert l key v → p.2 = v ∨ p ∈ l := by
  intro l
  induction l with
  | nil =>
      intro key v h
      simp only [ainsert, List.mem_singleton] at h
      subst h
      exact Or.inl rfl
  | cons hd tl ih =>
      intro key v h
      simp only [ainsert] at h
      by_cases hk : hd.1 = key
      · rw [if_pos hk] at h
        rcases List.mem_cons.mp h with h1 | h2
        · subst h1; exact Or.inl rfl
        · exact Or.inr (List.mem_cons_of_mem _ h2)
      · rw [if_neg hk] at h
        rcases List.mem_cons.mp h with h1 | h2
        · subst h1; exact Or.inr (List.mem_cons_self _ _)
        · rcases ih key v h2 with h3 | h4
          · exact Or.inl h3
          · exact Or.inr (List.mem_cons_of_mem _ h4)

lemma mem_aremove {α : Type} (p : String × α) :
    ∀ (l : List (String × α)) (key : String),
      p ∈ aremove l key → p ∈ l := by
  intro l
  induction l with
  | nil => intro key h; simp [aremove] at h
  | cons hd tl ih =>
      intro key h
      simp only [aremove] at h
      by_cases hk : hd.1 = key
      · rw [if_pos hk] at h
        exact List.mem_cons_of_mem _ h
      · rw [if_neg hk] at h
        rcases List.mem_cons.mp h with h1 | h2
        · subst h1; exact List.mem_cons_self _ _
        · exact List.mem_cons_of_mem _ (ih key h2)

lemma alookup_mem {α : Type} :
    ∀ (l : List (String × α)) (key : String) (v : α),
      alookup l key = some v → ∃ k, (k, v) ∈ l := by
  intro l
  induction l with
  | nil => intro key v h; simp [alookup] at h
  | cons hd tl ih =>
      intro key v h
      simp only [alookup] at h
      by_cases hk : hd.1 = key
      · rw [if_pos hk] at h
        refine ⟨hd.1, ?_⟩
        have : hd = (hd.1, v) := by
          cases hd; cases h; rfl
        rw [← this]
        exact List.mem_cons_self _ _
      · rw [if_neg hk] at h
        rcases ih key v h with ⟨k, hmem⟩
        exact ⟨k, List.mem_cons_of_mem _ hmem⟩

lemma mem_set_cases {α : Type} :
    ∀ (l : List α) (i : Nat) (b a : α), a ∈ l.set i b → a = b ∨ a ∈ l := by
  intro l
  induction l with
  | nil => intro i b a h; simp [List.set] at h
  | cons hd tl ih =>
      intro i b a h
      cases i with
      | zero =>
          rcases List.mem_cons.mp h with h1 | h2
          · exact Or.inl h1
          · exact Or.inr (List.mem_cons_of_mem _ h2)
      | succ n =>
          rcases List.mem_cons.mp h with h1 | h2
          · subst h1; exact Or.inr (List.mem_cons_self _ _)
          · rcases ih n b a h2 with h3 | h4
            · exact Or.inl h3
            · exact Or.inr (List.mem_cons_of_mem _ h4)

lemma getq_some_mem {α : Type} :
    ∀ (l : List α) (i : Nat) (a : α), l.get? i = some a → a ∈ l := by
  intro l
  induction l with
  | nil => intro i a h; simp [List.get?] at h
  | cons hd tl ih =>
      intro i a h
      cases i with
      | zero =>
          simp only [List.get?] at h
          cases h
          exact List.mem_cons_self _ _
      | succ n =>
          simp only [List.get?] at h
          exact List.mem_cons_of_mem _ (ih n a h)

lemma getq_append_left {α : Type} :
    ∀ (l1 l2 : List α) (i : Nat) (a : α),
      l1.get? i = some a → (l1 ++ l2).get? i = some a := by
  intro l1
  induction l1 with
  | nil => intro l2 i a h; simp [List.get?] at h
  | cons hd tl ih =>
      intro l2 i a h
      cases i with
      | zero => simpa [List.get?] using h
      | succ n =>
          simp only [List.get?] at h ⊢
          exact ih l2 n a h

/- ------------------------------------------------------------------ -/
/- Models of src/lib.rs                                               -/
/- ------------------------------------------------------------------ -/

/-- A boxed dyn Any value from the shared Cache of lib.rs: a payload plus
the runtime type tag of its Rust type.  downcast to a type with tag t
succeeds exactly when the stored tag is t. -/
structure DynVal where
  tag : Nat
  val : Nat
deriving DecidableEq

/-- The type tag of Py<PyAny>, the type RustFlight::py_call stores and
downcasts to. -/
def pyAnyTag : Nat := 0

instance exceptDecEq {ε α : Type} [DecidableEq ε] [DecidableEq α] :
    DecidableEq (Except ε α) := fun a b =>
  match a, b with
  | Except.ok x, Except.ok y =>
      if h : x = y then Decidable.isTrue (by rw [h])
      else Decidable.isFalse (fun he => by cases he; exact h rfl)
  | Except.ok _, Except.error _ => Decidable.isFalse (fun he => by cases he)
  | Except.error _, Except.ok _ => Decidable.isFalse (fun he => by cases he)
  | Except.error d, Except.error e =>
      if h : d = e then Decidable.isTrue (by rw [h])
      else Decidable.isFalse (fun he => by cases he; exact h rfl)

/-- Result of one call into RustFlight::py_call or RustMethods::call:
the returned value or error, the cache after the call, and whether the
supplied computation was invoked. -/
structure CallResult where
  res : Except String Nat
  cache : List (String × DynVal)
  invoked : Bool
deriving DecidableEq

/-- RustFlight::py_call (lib.rs lines 28-61), sequential semantics.
readLockOk / writeLockOk model whether the RwLock read / write
acquisitions succeed (a poisoned lock yields Err in Rust); argsOk and
kwargsOk model the two downcast_bound calls on the arguments; f models
func.call and may fail with a Python error.  A read-lock failure or a
failed downcast of the cached value is only logged (eprintln) and falls
through to recomputation; a write-lock failure is only logged and the
fresh result is still returned. -/
def RustFlight.py_call (cache : List (String × DynVal))
    (readLockOk writeLockOk argsOk kwargsOk : Bool)
    (f : Unit → Except String Nat) (key : String) : CallResult :=
  let hit : Option Nat :=
    if readLockOk then
      match alookup cache key with
      | some d => if d.tag = pyAnyTag then some d.val else none
      | none => none
    else none
  match hit with
  | some v => ⟨Except.ok v, cache, false⟩
  | none =>
      if argsOk = false then ⟨Except.error "args downcast failed", cache, false⟩
      else if kwargsOk = false then
        ⟨Except.error "kwargs downcast failed", cache, false⟩
      else
        match f () with
        | Except.error e => ⟨Except.error e, cache, true⟩
        | Except.ok v =>
            ⟨Except.ok v,
             if writeLockOk then ainsert cache key ⟨pyAnyTag, v⟩ else cache,
             true⟩

/-- RustMethods::call (lib.rs lines 72-101), sequential semantics.
tagT is the type tag of the caller-chosen result type T; the supplied
closure f is infallible (FnOnce(Args) -> T).  A poisoned read lock is an
error return; a mismatched downcast of a cached value is an error return;
a poisoned write lock is only logged and the fresh result is returned. -/
def RustMethods.call (cache : List (String × DynVal))
    (readLockOk writeLockOk : Bool) (tagT : Nat)
    (f : Unit → Nat) (key : String) : CallResult :=
  if readLockOk = false then
    ⟨Except.error "Failed to get read lock!", cache, false⟩
  else
    match alookup cache key with
    | some d =>
        if d.tag = tagT then ⟨Except.ok d.val, cache, false⟩
        else ⟨Except.error "Cached value has unexpected type!", cache, false⟩
    | none =>
        let v := f ()
        ⟨Except.ok v,
         if writeLockOk then ainsert cache key ⟨tagT, v⟩ else cache,
         true⟩

/-- Program counter of one thread running RustMethods::call on key "k"
with result tag 1, where the supplied computation increments a shared
counter and returns it.  The atomic steps are the two lock-delimited
regions of the method: the read-lock lookup, then the computation plus
write-lock insert. -/
inductive RMPc
  | start
  | computingRM
  | finishedRM (r : Except String Nat)
deriving DecidableEq

/-- Shared configuration of two threads racing through RustMethods::call
on the same key "k": the shared cache, the shared invocation counter,
and the two program counters. -/
structure RMConfig where
  cache : List (String × DynVal)
  counter : Nat
  t1 : RMPc
  t2 : RMPc
deriving DecidableEq

/-- One atomic step of a thread in RustMethods::call on key "k", tag 1,
computation = increment the shared counter and return it (the counter
computation of property P1):
read-lock lookup first, then compute plus write-lock insert. -/
def rmThreadStep (cache : List (String × DynVal)) (counter : Nat)
    (pc : RMPc) : List (String × DynVal) × Nat × RMPc :=
  match pc with
  | RMPc.start =>
      match alookup cache "k" with
      | some d =>
          if d.tag = 1 then (cache, counter, RMPc.finishedRM (Except.ok d.val))
          else (cache, counter,
                RMPc.finishedRM (Except.error "Cached value has unexpected type!"))
      | none => (cache, counter, RMPc.computingRM)
  | RMPc.computingRM =>
      (ainsert cache "k" ⟨1, counter + 1⟩, counter + 1,
       RMPc.finishedRM (Except.ok (counter + 1)))
  | RMPc.finishedRM r => (cache, counter, RMPc.finishedRM r)

/-- Interleaved step of the two-thread RustMethods::call race: true steps
thread 1, false steps thread 2. -/
def rmStep (c : RMConfig) (first : Bool) : RMConfig :=
  if first then
    let r := rmThreadStep c.cache c.counter c.t1
    ⟨r.1, r.2.1, r.2.2, c.t2⟩
  else
    let r := rmThreadStep c.cache c.counter c.t2
    ⟨r.1, r.2.1, c.t1, r.2.2⟩

/-- Run a schedule of interleaved steps of the two-thread race. -/
def rmRun : RMConfig → List Bool → RMConfig
  | c, [] => c
  | c, b :: rest => rmRun (rmStep c b) rest

/-- CacheEntry from lib.rs: the record behind the per-key handle
(Mutex<CacheEntry<V>>, Condvar).  The only constructor the source ever
uses is pending(); no code path in lib.rs mutates a CacheEntry after
construction. -/
structure CacheEntry where
  value : Option Nat
  ready : Bool
deriving DecidableEq

/-- CacheEntry::pending (lib.rs lines 111-116). -/
def CacheEntry.pendingEntry : CacheEntry := ⟨none, false⟩

/-- EntryState from lib.rs: Ready(V) or Pending(handle).  The handle
contents are tracked separately in the configuration (the source only
ever creates one handle per key slot, and never mutates it). -/
inductive EntryState
  | Ready (v : Nat)
  | Pending
deriving DecidableEq

/-- Outcome of a completed SimpleWaiter::call_with_cache call. -/
inductive SWOutcome
  | returned (v : Nat)
  | panickedV (msg : String)
deriving DecidableEq

/-- Program counter of one caller inside SimpleWaiter::call_with_cache,
split at the lock boundaries of lib.rs lines 138-175:
start        = about to run the lock-and-match of lines 142-145;
waitingH     = blocked in the wait loop of lines 149-153;
computingPc  = past the Pending insert and the drop(cache) of line 166,
               about to invoke f (line 167);
publishing v = holding the computed result v, about to run the
               publication of lines 168-171;
finished     = returned. -/
inductive SWPc
  | start
  | waitingH
  | computingPc
  | publishing (v : Nat)
  | finished (o : SWOutcome)
deriving DecidableEq

/-- One caller of SimpleWaiter::call_with_cache: the value its closure f
would return, and its program counter. -/
structure SWThread where
  fval : Nat
  pc : SWPc
deriving DecidableEq

/-- Shared configuration of any number of callers racing through
SimpleWaiter::call_with_cache on one key: the map slot of that key
(SimpleWaiter has no eviction, and map operations on other keys touch
only other slots), the per-key handle record, the number of times the
supplied computation has been invoked, and the callers. -/
structure SWConfig where
  entry : Option EntryState
  handle : CacheEntry
  fCalls : Nat
  threads : List SWThread
deriving DecidableEq

/-- One atomic step of a caller in SimpleWaiter::call_with_cache.
start: the critical section of lines 142-145 - look the key up and
either return a Ready value, start waiting on a Pending handle, or
atomically insert Pending and become the computing owner (lines 162-166).
waitingH: the wait loop of lines 149-153 - the loop exits only when the
handle ready flag is true, in which case lines 155-160 re-read the map
and return the Ready value or panic "Value not found!"; while the flag
is false the caller stays blocked (no state change).
computingPc: invoke f (line 167).
publishing: the publication of lines 168-171 - insert Ready(result) into
the map and notify_all on the condvar; the handle record itself is not
written by these lines. -/
def swThreadStep (s : SWConfig) (t : SWThread) : SWConfig × SWThread :=
  match t.pc with
  | SWPc.start =>
      match s.entry with
      | some (EntryState.Ready v) =>
          (s, ⟨t.fval, SWPc.finished (SWOutcome.returned v)⟩)
      | some EntryState.Pending => (s, ⟨t.fval, SWPc.waitingH⟩)
      | none =>
          ({s with entry := some EntryState.Pending,
                   handle := CacheEntry.pendingEntry},
           ⟨t.fval, SWPc.computingPc⟩)
  | SWPc.waitingH =>
      if s.handle.ready then
        match s.entry with
        | some (EntryState.Ready v) =>
            (s, ⟨t.fval, SWPc.finished (SWOutcome.returned v)⟩)
        | _ => (s, ⟨t.fval, SWPc.finished (SWOutcome.panickedV "Value not found!")⟩)
      else (s, t)
  | SWPc.computingPc =>
      ({s with fCalls := s.fCalls + 1}, ⟨t.fval, SWPc.publishing t.fval⟩)
  | SWPc.publishing v =>
      ({s with entry := some (EntryState.Ready v)},
       ⟨t.fval, SWPc.finished (SWOutcome.returned v)⟩)
  | SWPc.finished o => (s, ⟨t.fval, SWPc.finished o⟩)

/-- Interleaved step: caller i performs its next atomic step. -/
def swStep (s : SWConfig) (i : Nat) : SWConfig :=
  match s.threads.get? i with
  | none => s
  | some t =>
      let r := swThreadStep s t
      {r.1 with threads := s.threads.set i r.2}

/-- Run a schedule of interleaved SimpleWaiter steps. -/
def swRun : SWConfig → List Nat → SWConfig
  | s, [] => s
  | s, i :: rest => swRun (swStep s i) rest

/-- Whether a caller is between winning the Pending insert and invoking
the computation. -/
def swIsComputing : SWThread → Bool
  | ⟨_, SWPc.computingPc⟩ => true
  | _ => false

/-- Number of callers currently between the Pending insert and the
computation call-out. -/
def swCC : List SWThread → Nat
  | [] => 0
  | t :: ts => (if swIsComputing t then 1 else 0) + swCC ts

lemma swCC_set :
    ∀ (ts : List SWThread) (i : Nat) (t t2 : SWThread),
      ts.get? i = some t →
      swCC (ts.set i t2) + (if swIsComputing t then 1 else 0) =
        swCC ts + (if swIsComputing t2 then 1 else 0) := by
  intro ts
  induction ts with
  | nil => intro i t t2 h; simp [List.get?] at h
  | cons hd tl ih =>
      intro i t t2 h
      cases i with
      | zero =>
          simp only [List.get?] at h
          cases h
          simp only [List.set, swCC]
          omega
      | succ n =>
          simp only [List.get?] at h
          simp only [List.set, swCC]
          have := ih n t t2 h
          omega

lemma swCC_pos :
    ∀ (ts : List SWThread) (i : Nat) (t : SWThread),
      ts.get? i = some t → swIsComputing t = true → 1 ≤ swCC ts := by
  intro ts
  induction ts with
  | nil => intro i t h; simp [List.get?] at h
  | cons hd tl ih =>
      intro i t h hc
      cases i with
      | zero =>
          simp only [List.get?] at h
          cases h
          simp [swCC, hc]
      | succ n =>
          simp only [List.get?] at h
          have := ih n t h hc
          simp only [swCC]
          omega

lemma swCC_all_start :
    ∀ (ts : List SWThread), (∀ t ∈ ts, t.pc = SWPc.start) → swCC ts = 0 := by
  intro ts
  induction ts with
  | nil => intro _; rfl
  | cons hd tl ih =>
      intro h
      have hhd : hd.pc = SWPc.start := h hd (List.mem_cons_self _ _)
      have htl : ∀ t ∈ tl, t.pc = SWPc.start :=
        fun t ht => h t (List.mem_cons_of_mem _ ht)
      have hc : swIsComputing hd = false := by
        cases hd with
        | mk fv pc => simp only at hhd; rw [hhd]; rfl
      simp [swCC, hc, ih htl]

/-- Single-execution invariant for SimpleWaiter::call_with_cache: while
the map slot is empty nothing has been computed and nobody owns the
slot, and the number of completed computations plus current owners never
exceeds one. -/
def SWInv (s : SWConfig) : Prop :=
  (s.entry = none → s.fCalls = 0 ∧ swCC s.threads = 0) ∧
  s.fCalls + swCC s.threads ≤ 1

lemma swInv_keepScalars (s : SWConfig) (i : Nat) (t t2 : SWThread)
    (hget : s.threads.get? i = some t)
    (hA : s.entry = none → s.fCalls = 0 ∧ swCC s.threads = 0)
    (hB : s.fCalls + swCC s.threads ≤ 1)
    (hot : swIsComputing t = false) (hnt : swIsComputing t2 = false) :
    SWInv {s with threads := s.threads.set i t2} := by
  have hset := swCC_set s.threads i t t2 hget
  rw [hot, hnt] at hset
  simp at hset
  constructor
  · intro he
    rcases hA he with ⟨h1, h2⟩
    refine ⟨h1, ?_⟩
    show swCC (s.threads.set i t2) = 0
    omega
  · show s.fCalls + swCC (s.threads.set i t2) ≤ 1
    omega

lemma swInv_entrySome (s : SWConfig) (i : Nat) (t t2 : SWThread) (es : EntryState)
    (hget : s.threads.get? i = some t)
    (hB : s.fCalls + swCC s.threads ≤ 1)
    (hot : swIsComputing t = false) (hnt : swIsComputing t2 = false) :
    SWInv {s with entry := some es, threads := s.threads.set i t2} := by
  have hset := swCC_set s.threads i t t2 hget
  rw [hot, hnt] at hset
  simp at hset
  constructor
  · intro he
    exact absurd he (by simp)
  · show s.fCalls + swCC (s.threads.set i t2) ≤ 1
    omega

lemma swStep_inv (s : SWConfig) (i : Nat) (h : SWInv s) : SWInv (swStep s i) := by
  obtain ⟨hA, hB⟩ := h
  unfold swStep
  cases hget : s.threads.get? i with
  | none => exact ⟨hA, hB⟩
  | some t =>
      cases t with
      | mk fv pc =>
          cases pc with
          | start =>
              cases hentry : s.entry with
              | some es =>
                  cases es with
                  | Ready v =>
                      have hts : swThreadStep s ⟨fv, SWPc.start⟩ =
                          (s, ⟨fv, SWPc.finished (SWOutcome.returned v)⟩) := by
                        simp [swThreadStep, hentry]
                      show SWInv {(swThreadStep s ⟨fv, SWPc.start⟩).1 with
                        threads := s.threads.set i (swThreadStep s ⟨fv, SWPc.start⟩).2}
                      rw [hts]
                      exact swInv_keepScalars s i _ _ hget hA hB rfl rfl
                  | Pending =>
                      have hts : swThreadStep s ⟨fv, SWPc.start⟩ =
                          (s, ⟨fv, SWPc.waitingH⟩) := by
                        simp [swThreadStep, hentry]
                      show SWInv {(swThreadStep s ⟨fv, SWPc.start⟩).1 with
                        threads := s.threads.set i (swThreadStep s ⟨fv, SWPc.start⟩).2}
                      rw [hts]
                      exact swInv_keepScalars s i _ _ hget hA hB rfl rfl
              | none =>
                  have hts : swThreadStep s ⟨fv, SWPc.start⟩ =
                      ({s with entry := some EntryState.Pending,
                               handle := CacheEntry.pendingEntry},
                       ⟨fv, SWPc.computingPc⟩) := by
                    simp [swThreadStep, hentry]
                  show SWInv {(swThreadStep s ⟨fv, SWPc.start⟩).1 with
                    threads := s.threads.set i (swThreadStep s ⟨fv, SWPc.start⟩).2}
                  rw [hts]
                  rcases hA hentry with ⟨h1, h2⟩
                  have hset := swCC_set s.threads i ⟨fv, SWPc.start⟩
                    ⟨fv, SWPc.computingPc⟩ hget
                  simp [swIsComputing] at hset
                  constructor
                  · intro he
                    exact absurd he (by simp)
                  · show s.fCalls + swCC (s.threads.set i ⟨fv, SWPc.computingPc⟩) ≤ 1
                    omega
          | waitingH =>
              cases hr : s.handle.ready with
              | true =>
                  cases hentry : s.entry with
                  | some es =>
                      cases es with
                      | Ready v =>
                          have hts : swThreadStep s ⟨fv, SWPc.waitingH⟩ =
                              (s, ⟨fv, SWPc.finished (SWOutcome.returned v)⟩) := by
                            simp [swThreadStep, hr, hentry]
                          show SWInv {(swThreadStep s ⟨fv, SWPc.waitingH⟩).1 with
                            threads := s.threads.set i (swThreadStep s ⟨fv, SWPc.waitingH⟩).2}
                          rw [hts]
                          exact swInv_keepScalars s i _ _ hget hA hB rfl rfl
                      | Pending =>
                          have hts : swThreadStep s ⟨fv, SWPc.waitingH⟩ =
                              (s, ⟨fv, SWPc.finished (SWOutcome.panickedV "Value not found!")⟩) := by
                            simp [swThreadStep, hr, hentry]
                          show SWInv {(swThreadStep s ⟨fv, SWPc.waitingH⟩).1 with
                            threads := s.threads.set i (swThreadStep s ⟨fv, SWPc.waitingH⟩).2}
                          rw [hts]
                          exact swInv_keepScalars s i _ _ hget hA hB rfl rfl
                  | none =>
                      have hts : swThreadStep s ⟨fv, SWPc.waitingH⟩ =
                          (s, ⟨fv, SWPc.finished (SWOutcome.panickedV "Value not found!")⟩) := by
                        simp [swThreadStep, hr, hentry]
                      show SWInv {(swThreadStep s ⟨fv, SWPc.waitingH⟩).1 with
                        threads := s.threads.set i (swThreadStep s ⟨fv, SWPc.waitingH⟩).2}
                      rw [hts]
                      exact swInv_keepScalars s i _ _ hget hA hB rfl rfl
              | false =>
                  have hts : swThreadStep s ⟨fv, SWPc.waitingH⟩ =
                      (s, ⟨fv, SWPc.waitingH⟩) := by
                    simp [swThreadStep, hr]
                  show SWInv {(swThreadStep s ⟨fv, SWPc.waitingH⟩).1 with
                    threads := s.threads.set i (swThreadStep s ⟨fv, SWPc.waitingH⟩).2}
                  rw [hts]
                  exact swInv_keepScalars s i _ _ hget hA hB rfl rfl
          | computingPc =>
              have hts : swThreadStep s ⟨fv, SWPc.computingPc⟩ =
                  ({s with fCalls := s.fCalls + 1}, ⟨fv, SWPc.publishing fv⟩) := by
                simp [swThreadStep]
              show SWInv {(swThreadStep s ⟨fv, SWPc.computingPc⟩).1 with
                threads := s.threads.set i (swThreadStep s ⟨fv, SWPc.computingPc⟩).2}
              rw [hts]
              have hset := swCC_set s.threads i ⟨fv, SWPc.computingPc⟩
                ⟨fv, SWPc.publishing fv⟩ hget
              simp [swIsComputing] at hset
              have hpos := swCC_pos s.threads i ⟨fv, SWPc.computingPc⟩ hget rfl
              constructor
              · intro he
                rcases hA he with ⟨h1, h2⟩
                refine ⟨?_, ?_⟩
                · show s.fCalls + 1 = 0
                  omega
                · show swCC (s.threads.set i ⟨fv, SWPc.publishing fv⟩) = 0
                  omega
              · show s.fCalls + 1 + swCC (s.threads.set i ⟨fv, SWPc.publishing fv⟩) ≤ 1
                omega
          | publishing v =>
              have hts : swThreadStep s ⟨fv, SWPc.publishing v⟩ =
                  ({s with entry := some (EntryState.Ready v)},
                   ⟨fv, SWPc.finished (SWOutcome.returned v)⟩) := by
                simp [swThreadStep]
              show SWInv {(swThreadStep s ⟨fv, SWPc.publishing v⟩).1 with
                threads := s.threads.set i (swThreadStep s ⟨fv, SWPc.publishing v⟩).2}
              rw [hts]
              exact swInv_entrySome s i _ _ (EntryState.Ready v) hget hB rfl rfl
          | finished o =>
              have hts : swThreadStep s ⟨fv, SWPc.finished o⟩ =
                  (s, ⟨fv, SWPc.finished o⟩) := by
                simp [swThreadStep]
              show SWInv {(swThreadStep s ⟨fv, SWPc.finished o⟩).1 with
                threads := s.threads.set i (swThreadStep s ⟨fv, SWPc.finished o⟩).2}
              rw [hts]
              exact swInv_keepScalars s i _ _ hget hA hB rfl rfl

lemma swRun_inv :
    ∀ (sched : List Nat) (s : SWConfig), SWInv s → SWInv (swRun s sched) := by
  intro sched
  induction sched with
  | nil => intro s h; exact h
  | cons i rest ih => intro s h; exact ih (swStep s i) (swStep_inv s i h)

/- ------------------------------------------------------------------ -/
/- Models of src/py_waiter.rs                                         -/
/- ------------------------------------------------------------------ -/

/-- PyCacheEntry from py_waiter.rs: the per-key record holding an
optional Py<PyAny> payload and the ready flag. -/
structure PyCacheEntry where
  value : Option Nat
  ready : Bool
deriving DecidableEq

/-- PyCacheEntry::new (py_waiter.rs lines 13-15). -/
def PyCacheEntry.new (value : Option Nat) (ready : Bool) : PyCacheEntry :=
  ⟨value, ready⟩

/-- PyCacheEntry::pending (py_waiter.rs lines 17-22). -/
def PyCacheEntry.pending : PyCacheEntry := ⟨none, false⟩

/-- PyCacheEntry::ready (py_waiter.rs lines 24-27): sets the value to
Some(new_value) and the ready flag to true.  Named setReady here because
the structure already has a field called ready. -/
def PyCacheEntry.setReady (e : PyCacheEntry) (newValue : Nat) : PyCacheEntry :=
  {e with value := some newValue, ready := true}

/-- PyEntryState from py_waiter.rs lines 30-33.  The Pending payload is
the identity of the shared handle (an index into the handle pool of the
configuration, standing for the Arc<(Mutex<PyCacheEntry>, Condvar)>);
the Ready payload is an inline PyCacheEntry, as in the source. -/
inductive PyEntryState
  | Ready (e : PyCacheEntry)
  | Pending (hId : Nat)
deriving DecidableEq

/-- Outcome of a completed PyCache::py_call call: the function returns
Py<PyAny> and has no error path, so every failure inside it is a panic
through .expect. -/
inductive PyOutcome
  | returned (v : Nat)
  | panicked (msg : String)
deriving DecidableEq

/-- Program counter of one caller inside PyCache::py_call, split at the
blocking points of py_waiter.rs lines 51-139:
start           = about to run the lookup of lines 59-104;
waiting hId     = inside the wait loop of lines 76-101 on handle hId;
computing hId   = past the Pending insert and drop(cache) of lines
                  106-110, about to run the casts and the Python call of
                  lines 113-121, owning handle hId;
publishing hId v = about to run the handle update and notify_all of
                  lines 124-127;
promoting hId v = about to run the final Ready insert of lines 130-137;
finished        = returned or panicked. -/
inductive PyPc
  | start
  | waiting (hId : Nat)
  | computing (hId : Nat)
  | publishing (hId : Nat) (v : Nat)
  | promoting (hId : Nat) (v : Nat)
  | finished (out : PyOutcome)
deriving DecidableEq

/-- One caller of PyCache::py_call: its key, whether the two argument
downcasts succeed, the result of its Python callable (Ok value or
raised error), and its program counter. -/
structure PyThread where
  key : String
  argsOk : Bool
  kwargsOk : Bool
  fres : Except String Nat
  pc : PyPc
deriving DecidableEq

/-- Shared configuration of callers racing through PyCache::py_call plus
eviction calls to PyCache::drop: the keyed map behind the cache mutex,
the pool of per-key handle records (Arc targets, addressed by index;
replaced map entries keep their index alive, as Arc keeps the allocation
alive), the number of Python-callable invocations so far, and the
callers. -/
structure PyConfig where
  map : List (String × PyEntryState)
  handles : List PyCacheEntry
  computeCount : Nat
  threads : List PyThread
deriving DecidableEq

def pySetPc (t : PyThread) (pc : PyPc) : PyThread := {t with pc := pc}

/-- Scheduling choice for a caller blocked in the wait loop:
check       = the re-check of entry.ready at the top of the loop
              (lines 77-86);
timeoutWake = the return from wait_timeout (lines 88-100): if the guard
              is ready the value is returned, otherwise the loop breaks
              and the caller falls through to lines 106-138. -/
inductive PyOracle
  | check
  | timeoutWake
deriving DecidableEq

/-- One atomic step of a caller in PyCache::py_call.
start: the lookup of lines 59-72 - return the value of a Ready entry
(panicking "Ready value was None." if the stored Option is None), start
waiting on a Pending entry, or, for an absent key, create a fresh pending
handle and insert Pending (lines 106-110) and become the computing owner.
waiting: driven by the oracle; a timed-out caller falls through to lines
106-110 exactly like an absent-key caller, replacing the map entry with a
fresh Pending handle.
computing: the casts and the Python call of lines 113-121; each failure
is a panic through .expect; on success the owner moves to publication.
publishing: lines 124-127 - apply PyCacheEntry::ready to the owned
handle and notify_all.
promoting: lines 130-137 - insert Ready(PyCacheEntry::new(Some(result),
true)) into the map and return the result. -/
def pyThreadStep (s : PyConfig) (t : PyThread) (o : PyOracle) :
    PyConfig × PyThread :=
  match t.pc with
  | PyPc.start =>
      match alookup s.map t.key with
      | some (PyEntryState.Ready e) =>
          (s, pySetPc t (PyPc.finished (match e.value with
              | some v => PyOutcome.returned v
              | none => PyOutcome.panicked "Ready value was None.")))
      | some (PyEntryState.Pending hId) => (s, pySetPc t (PyPc.waiting hId))
      | none =>
          ({s with
              map := ainsert s.map t.key (PyEntryState.Pending s.handles.length),
              handles := s.handles ++ [PyCacheEntry.pending]},
           pySetPc t (PyPc.computing s.handles.length))
  | PyPc.waiting hId =>
      match s.handles.get? hId with
      | none => (s, t)
      | some e =>
          match o with
          | PyOracle.check =>
              if e.ready then
                (s, pySetPc t (PyPc.finished (match e.value with
                    | some v => PyOutcome.returned v
                    | none => PyOutcome.panicked "None after ready!")))
              else (s, t)
          | PyOracle.timeoutWake =>
              if e.ready then
                (s, pySetPc t (PyPc.finished (match e.value with
                    | some v => PyOutcome.returned v
                    | none => PyOutcome.panicked "Guard is none after ready!")))
              else
                ({s with
                    map := ainsert s.map t.key
                      (PyEntryState.Pending s.handles.length),
                    handles := s.handles ++ [PyCacheEntry.pending]},
                 pySetPc t (PyPc.computing s.handles.length))
  | PyPc.computing hId =>
      if t.argsOk = false then
        (s, pySetPc t (PyPc.finished (PyOutcome.panicked "Unable to cast to PyTuple!")))
      else if t.kwargsOk = false then
        (s, pySetPc t (PyPc.finished (PyOutcome.panicked "Unable to cast to PyDict!")))
      else
        match t.fres with
        | Except.error _ =>
            ({s with computeCount := s.computeCount + 1},
             pySetPc t (PyPc.finished (PyOutcome.panicked "PyCall failed")))
        | Except.ok v =>
            ({s with computeCount := s.computeCount + 1},
             pySetPc t (PyPc.publishing hId v))
  | PyPc.publishing hId v =>
      match s.handles.get? hId with
      | some e =>
          ({s with handles := s.handles.set hId (PyCacheEntry.setReady e v)},
           pySetPc t (PyPc.promoting hId v))
      | none => (s, pySetPc t (PyPc.promoting hId v))
  | PyPc.promoting _ v =>
      ({s with map :=
          (ainsert s.map t.key (PyEntryState.Ready (PyCacheEntry.new (some v) true)))},
       pySetPc t (PyPc.finished (PyOutcome.returned v)))
  | PyPc.finished _ => (s, t)

/-- One scheduled operation: a step of caller i inside py_call, or a
whole PyCache::drop of a key (py_waiter.rs lines 141-144, a single
critical section removing the map entry). -/
inductive PyOp
  | callOp (i : Nat) (o : PyOracle)
  | dropOp (key : String)
deriving DecidableEq

def pyStep (s : PyConfig) (op : PyOp) : PyConfig :=
  match op with
  | PyOp.dropOp key => {s with map := aremove s.map key}
  | PyOp.callOp i o =>
      match s.threads.get? i with
      | none => s
      | some t =>
          let r := pyThreadStep s t o
          {r.1 with threads := s.threads.set i r.2}

/-- Run a schedule of interleaved PyCache operations. -/
def pyRun : PyConfig → List PyOp → PyConfig
  | s, [] => s
  | s, op :: rest => pyRun (pyStep s op) rest

/-- Map part of the Ready-reads-are-safe invariant: every Ready map
entry stores Some value. -/
def pyMapInv (m : List (String × PyEntryState)) : Prop :=
  ∀ p ∈ m, ∀ e, p.2 = PyEntryState.Ready e → e.value.isSome = true

/-- Handle part of the invariant: every handle whose ready flag is true
stores Some value. -/
def pyHandleInv (hs : List PyCacheEntry) : Prop :=
  ∀ e ∈ hs, e.ready = true → e.value.isSome = true

/-- Whether a program counter has hit one of the three expect branches
that read an Option out of a Ready entry or ready handle
(py_waiter.rs lines 69, 83 and 96). -/
def pyPcBad : PyPc → Bool
  | PyPc.finished (PyOutcome.panicked msg) =>
      (msg == "Ready value was None.") || (msg == "None after ready!") ||
        (msg == "Guard is none after ready!")
  | _ => false

/-- No caller has ever panicked in one of the three Ready-read expect
branches. -/
def pyNoBad (ts : List PyThread) : Prop := ∀ t ∈ ts, pyPcBad t.pc = false

/-- Full invariant of the PyCache configuration. -/
def PyInv (s : PyConfig) : Prop :=
  pyMapInv s.map ∧ pyHandleInv s.handles ∧ pyNoBad s.threads

lemma pyMapInv_insert_pending (m : List (String × PyEntryState)) (key : String)
    (hId : Nat) (h : pyMapInv m) :
    pyMapInv (ainsert m key (PyEntryState.Pending hId)) := by
  intro p hp e hpe
  rcases mem_ainsert p m key _ hp with h1 | h2
  · rw [h1] at hpe; cases hpe
  · exact h p h2 e hpe

lemma pyMapInv_insert_ready (m : List (String × PyEntryState)) (key : String)
    (v : Nat) (h : pyMapInv m) :
    pyMapInv (ainsert m key (PyEntryState.Ready (PyCacheEntry.new (some v) true))) := by
  intro p hp e hpe
  rcases mem_ainsert p m key _ hp with h1 | h2
  · rw [h1] at hpe; cases hpe; rfl
  · exact h p h2 e hpe

lemma pyMapInv_remove (m : List (String × PyEntryState)) (key : String)
    (h : pyMapInv m) : pyMapInv (aremove m key) :=
  fun p hp e hpe => h p (mem_aremove p m key hp) e hpe

lemma pyHandleInv_append (hs : List PyCacheEntry) (h : pyHandleInv hs) :
    pyHandleInv (hs ++ [PyCacheEntry.pending]) := by
  intro e he hr
  rcases List.mem_append.mp he with h1 | h2
  · exact h e h1 hr
  · simp only [List.mem_singleton] at h2
    rw [h2] at hr
    simp [PyCacheEntry.pending] at hr

lemma pyHandleInv_setReady (hs : List PyCacheEntry) (hId : Nat)
    (e2 : PyCacheEntry) (v : Nat) (h : pyHandleInv hs) :
    pyHandleInv (hs.set hId (PyCacheEntry.setReady e2 v)) := by
  intro e he hr
  rcases mem_set_cases hs hId _ e he with h1 | h2
  · rw [h1]; rfl
  · exact h e h2 hr

lemma pyNoBad_set (ts : List PyThread) (i : Nat) (t2 : PyThread)
    (h : pyNoBad ts) (h2 : pyPcBad t2.pc = false) : pyNoBad (ts.set i t2) := by
  intro t ht
  rcases mem_set_cases ts i t2 t ht with h1 | h3
  · rw [h1]; exact h2
  · exact h t h3

lemma pyStep_inv (s : PyConfig) (op : PyOp) (h : PyInv s) : PyInv (pyStep s op) := by
  obtain ⟨hM, hH, hT⟩ := h
  cases op with
  | dropOp key =>
      show PyInv {s with map := aremove s.map key}
      exact ⟨pyMapInv_remove s.map key hM, hH, hT⟩
  | callOp i o =>
      simp only [pyStep]
      cases hget : s.threads.get? i with
      | none => exact ⟨hM, hH, hT⟩
      | some t =>
          have hmemT : t ∈ s.threads := getq_some_mem s.threads i t hget
          cases t with
          | mk key aOk kOk fres pc =>
              show PyInv
                {(pyThreadStep s ⟨key, aOk, kOk, fres, pc⟩ o).1 with
                  threads := s.threads.set i (pyThreadStep s ⟨key, aOk, kOk, fres, pc⟩ o).2}
              cases pc with
              | start =>
                  cases hlook : alookup s.map key with
                  | some es =>
                      cases es with
                      | Ready e =>
                          obtain ⟨k2, hmem⟩ := alookup_mem s.map key _ hlook
                          have hv : e.value.isSome = true := hM (k2, PyEntryState.Ready e) hmem e rfl
                          cases hval : e.value with
                          | none => rw [hval] at hv; simp at hv
                          | some v =>
                              have hts : pyThreadStep s ⟨key, aOk, kOk, fres, PyPc.start⟩ o =
                                  (s, ⟨key, aOk, kOk, fres,
                                    PyPc.finished (PyOutcome.returned v)⟩) := by
                                simp [pyThreadStep, pySetPc, hlook, hval]
                              rw [hts]
                              exact ⟨hM, hH, pyNoBad_set s.threads i _ hT rfl⟩
                      | Pending hId =>
                          have hts : pyThreadStep s ⟨key, aOk, kOk, fres, PyPc.start⟩ o =
                              (s, ⟨key, aOk, kOk, fres, PyPc.waiting hId⟩) := by
                            simp [pyThreadStep, pySetPc, hlook]
                          rw [hts]
                          exact ⟨hM, hH, pyNoBad_set s.threads i _ hT rfl⟩
                  | none =>
                      have hts : pyThreadStep s ⟨key, aOk, kOk, fres, PyPc.start⟩ o =
                          ({s with
                              map := ainsert s.map key
                                (PyEntryState.Pending s.handles.length),
                              handles := s.handles ++ [PyCacheEntry.pending]},
                           ⟨key, aOk, kOk, fres, PyPc.computing s.handles.length⟩) := by
                        simp [pyThreadStep, pySetPc, hlook]
                      rw [hts]
                      exact ⟨pyMapInv_insert_pending s.map key _ hM,
                        pyHandleInv_append s.handles hH,
                        pyNoBad_set s.threads i _ hT rfl⟩
              | waiting hId =>
                  cases hgh : s.handles[hId]? with
                  | none =>
                      have hts : pyThreadStep s ⟨key, aOk, kOk, fres, PyPc.waiting hId⟩ o =
                          (s, ⟨key, aOk, kOk, fres, PyPc.waiting hId⟩) := by
                        simp [pyThreadStep, hgh]
                      rw [hts]
                      exact ⟨hM, hH, pyNoBad_set s.threads i _ hT rfl⟩
                  | some e =>
                      cases her : e.ready with
                      | true =>
                          have hgh2 : s.handles.get? hId = some e := by
                            rw [List.get?_eq_getElem?]; exact hgh
                          have hv : e.value.isSome = true :=
                            hH e (getq_some_mem s.handles hId e hgh2) her
                          cases hval : e.value with
                          | none => rw [hval] at hv; simp at hv
                          | some v =>
                              cases o with
                              | check =>
                                  have hts : pyThreadStep s
                                      ⟨key, aOk, kOk, fres, PyPc.waiting hId⟩ PyOracle.check =
                                      (s, ⟨key, aOk, kOk, fres,
                                        PyPc.finished (PyOutcome.returned v)⟩) := by
                                    simp [pyThreadStep, pySetPc, hgh, her, hval]
                                  rw [hts]
                                  exact ⟨hM, hH, pyNoBad_set s.threads i _ hT rfl⟩
                              | timeoutWake =>
                                  have hts : pyThreadStep s
                                      ⟨key, aOk, kOk, fres, PyPc.waiting hId⟩ PyOracle.timeoutWake =
                                      (s, ⟨key, aOk, kOk, fres,
                                        PyPc.finished (PyOutcome.returned v)⟩) := by
                                    simp [pyThreadStep, pySetPc, hgh, her, hval]
                                  rw [hts]
                                  exact ⟨hM, hH, pyNoBad_set s.threads i _ hT rfl⟩
                      | false =>
                          cases o with
                          | check =>
                              have hts : pyThreadStep s
                                  ⟨key, aOk, kOk, fres, PyPc.waiting hId⟩ PyOracle.check =
                                  (s, ⟨key, aOk, kOk, fres, PyPc.waiting hId⟩) := by
                                simp [pyThreadStep, hgh, her]
                              rw [hts]
                              exact ⟨hM, hH, pyNoBad_set s.threads i _ hT rfl⟩
                          | timeoutWake =>
                              have hts : pyThreadStep s
                                  ⟨key, aOk, kOk, fres, PyPc.waiting hId⟩ PyOracle.timeoutWake =
                                  ({s with
                                      map := ainsert s.map key
                                        (PyEntryState.Pending s.handles.length),
                                      handles := s.handles ++ [PyCacheEntry.pending]},
                                   ⟨key, aOk, kOk, fres,
                                     PyPc.computing s.handles.length⟩) := by
                                simp [pyThreadStep, pySetPc, hgh, her]
                              rw [hts]
                              exact ⟨pyMapInv_insert_pending s.map key _ hM,
                                pyHandleInv_append s.handles hH,
                                pyNoBad_set s.threads i _ hT rfl⟩
              | computing hId =>
                  cases haok : aOk with
                  | false =>
                      have hts : pyThreadStep s ⟨key, false, kOk, fres, PyPc.computing hId⟩ o =
                          (s, ⟨key, false, kOk, fres,
                            PyPc.finished (PyOutcome.panicked "Unable to cast to PyTuple!")⟩) := by
                        simp [pyThreadStep, pySetPc]
                      rw [hts]
                      exact ⟨hM, hH, pyNoBad_set s.threads i
                        ⟨key, false, kOk, fres,
                          PyPc.finished (PyOutcome.panicked "Unable to cast to PyTuple!")⟩
                        hT rfl⟩
                  | true =>
                      cases hkok : kOk with
                      | false =>
                          have hts : pyThreadStep s ⟨key, true, false, fres, PyPc.computing hId⟩ o =
                              (s, ⟨key, true, false, fres,
                                PyPc.finished (PyOutcome.panicked "Unable to cast to PyDict!")⟩) := by
                            simp [pyThreadStep, pySetPc]
                          rw [hts]
                          exact ⟨hM, hH, pyNoBad_set s.threads i
                            ⟨key, true, false, fres,
                              PyPc.finished (PyOutcome.panicked "Unable to cast to PyDict!")⟩
                            hT rfl⟩
                      | true =>
                          cases hfres : fres with
                          | error e2 =>
                              have hts : pyThreadStep s
                                  ⟨key, true, true, Except.error e2, PyPc.computing hId⟩ o =
                                  ({s with computeCount := s.computeCount + 1},
                                   ⟨key, true, true, Except.error e2,
                                     PyPc.finished (PyOutcome.panicked "PyCall failed")⟩) := by
                                simp [pyThreadStep, pySetPc]
                              rw [hts]
                              exact ⟨hM, hH, pyNoBad_set s.threads i
                                ⟨key, true, true, Except.error e2,
                                  PyPc.finished (PyOutcome.panicked "PyCall failed")⟩
                                hT rfl⟩
                          | ok v =>
                              have hts : pyThreadStep s
                                  ⟨key, true, true, Except.ok v, PyPc.computing hId⟩ o =
                                  ({s with computeCount := s.computeCount + 1},
                                   ⟨key, true, true, Except.ok v,
                                     PyPc.publishing hId v⟩) := by
                                simp [pyThreadStep, pySetPc]
                              rw [hts]
                              exact ⟨hM, hH, pyNoBad_set s.threads i _ hT rfl⟩
              | publishing hId v =>
                  cases hgh : s.handles[hId]? with
                  | none =>
                      have hts : pyThreadStep s ⟨key, aOk, kOk, fres, PyPc.publishing hId v⟩ o =
                          (s, ⟨key, aOk, kOk, fres, PyPc.promoting hId v⟩) := by
                        simp [pyThreadStep, pySetPc, hgh]
                      rw [hts]
                      exact ⟨hM, hH, pyNoBad_set s.threads i _ hT rfl⟩
                  | some e =>
                      have hts : pyThreadStep s ⟨key, aOk, kOk, fres, PyPc.publishing hId v⟩ o =
                          ({s with handles := s.handles.set hId (PyCacheEntry.setReady e v)},
                           ⟨key, aOk, kOk, fres, PyPc.promoting hId v⟩) := by
                        simp [pyThreadStep, pySetPc, hgh]
                      rw [hts]
                      exact ⟨hM, pyHandleInv_setReady s.handles hId e v hH,
                        pyNoBad_set s.threads i _ hT rfl⟩
              | promoting hId v =>
                  have hts : pyThreadStep s ⟨key, aOk, kOk, fres, PyPc.promoting hId v⟩ o =
                      ({s with map := (ainsert s.map key
                          (PyEntryState.Ready (PyCacheEntry.new (some v) true)))},
                       ⟨key, aOk, kOk, fres, PyPc.finished (PyOutcome.returned v)⟩) := by
                    simp [pyThreadStep, pySetPc]
                  rw [hts]
                  exact ⟨pyMapInv_insert_ready s.map key v hM, hH,
                    pyNoBad_set s.threads i _ hT rfl⟩
              | finished out =>
                  have hts : pyThreadStep s ⟨key, aOk, kOk, fres, PyPc.finished out⟩ o =
                      (s, ⟨key, aOk, kOk, fres, PyPc.finished out⟩) := by
                    simp [pyThreadStep]
                  rw [hts]
                  exact ⟨hM, hH, pyNoBad_set s.threads i _ hT (hT _ hmemT)⟩

lemma pyRun_inv :
    ∀ (sched : List PyOp) (s : PyConfig), PyInv s → PyInv (pyRun s sched) := by
  intro sched
  induction sched with
  | nil => intro s h; exact h
  | cons op rest ih => intro s h; exact ih (pyStep s op) (pyStep_inv s op h)

/- ------------------------------------------------------------------ -/
/- Lock-discipline traces (store lock vs waits and call-outs)         -/
/- ------------------------------------------------------------------ -/

/-- Lock and blocking events along one execution path of
SimpleWaiter::call_with_cache or PyCache::py_call. -/
inductive Ev
  | storeLock
  | storeUnlock
  | handleLock
  | handleUnlock
  | condWait
  | invoke
  | notifyAll
deriving DecidableEq

/-- Events of the SimpleWaiter::call_with_cache miss path, in program
order: lib.rs line 142 store lock, 145 lookup, 163-165 insert, 166
drop(cache), 167 computation call-out, 168 store lock, 169 insert, 171
notify_all, 172 return (guard released). -/
def swTraceMiss : List Ev :=
  [Ev.storeLock, Ev.storeUnlock, Ev.invoke, Ev.storeLock, Ev.notifyAll,
   Ev.storeUnlock]

/-- Events of the SimpleWaiter::call_with_cache pending path up to its
first blocking point: lib.rs line 142 store lock, 145 lookup, 149 handle
lock, 152 condition-variable wait.  The store guard taken at line 142 is
still live when the wait blocks (it is only dropped when the function
returns), so no further event of this path can execute until the wait
finishes. -/
def swTracePending : List Ev :=
  [Ev.storeLock, Ev.handleLock, Ev.condWait]

/-- Events of the PyCache::py_call ready-hit path: py_waiter.rs line 59
store lock, 61-71 lookup and return (guard released at return). -/
def pyTraceReady : List Ev := [Ev.storeLock, Ev.storeUnlock]

/-- Events of the PyCache::py_call miss path, in program order:
py_waiter.rs line 59 store lock, 61 lookup, 106-109 insert, 110
drop(cache), 113-121 casts and Python call-out, 125 handle lock, 126
update, 127 notify_all, handle guard released, 130 store lock, 134
insert, 138 return (guard released). -/
def pyTraceMiss : List Ev :=
  [Ev.storeLock, Ev.storeUnlock, Ev.invoke, Ev.handleLock, Ev.notifyAll,
   Ev.handleUnlock, Ev.storeLock, Ev.storeUnlock]

/-- Events of the PyCache::py_call pending-then-timeout path, in program
order: py_waiter.rs line 59 store lock, 61 lookup, 77 handle lock, 89
wait_timeout (the store guard from line 59 is still live here), 100
break with the handle guard released, 106-109 insert of the replacement
Pending entry, 110 drop(cache), 113-121 casts and Python call-out, 125
handle lock, 126 update, 127 notify_all, handle guard released, 130
store lock, 134 insert, 138 return. -/
def pyTracePendingTimeout : List Ev :=
  [Ev.storeLock, Ev.handleLock, Ev.condWait, Ev.handleUnlock, Ev.storeUnlock,
   Ev.invoke, Ev.handleLock, Ev.notifyAll, Ev.handleUnlock, Ev.storeLock,
   Ev.storeUnlock]

/-- Whether the store mutex is held when the event at index i of the
trace executes: strictly more store acquisitions than releases among the
events before index i. -/
def storeHeldAt (tr : List Ev) (i : Nat) : Bool :=
  Nat.blt ((tr.take i).count Ev.storeUnlock) ((tr.take i).count Ev.storeLock)

/- ------------------------------------------------------------------ -/
/- Claim theorems                                                     -/
/- ------------------------------------------------------------------ -/

/-- C1, counterexample.  The claim says that when N callers invoke the
get-or-compute operation (including RustMethods::call) for the same key,
the supplied computation runs exactly once and every caller receives the
identical value.  In RustMethods::call the cache check and the
computation-plus-insert are two separate lock regions, so two callers
that both miss both compute: with the counter computation of property
P1, the schedule read1, read2, compute1, compute2 ends with the counter
at 2 and the two callers holding different values (1 and 2). -/
theorem spec_c1_counterexample :
    rmRun ⟨[], 0, RMPc.start, RMPc.start⟩ [true, false, true, false] =
      ⟨[("k", ⟨1, 2⟩)], 2, RMPc.finishedRM (Except.ok 1),
        RMPc.finishedRM (Except.ok 2)⟩ := rfl

/-- C1, amended: in SimpleWaiter::call_with_cache the lookup and the
Pending insert happen in one critical section of the store lock, so for
any number of callers of the same key and any interleaving the supplied
computation is started at most once; RustFlight::py_call and
RustMethods::call provide no such guarantee (see the counterexample),
and a PyCache::py_call waiter that times out also starts a second
computation (see C4). -/
theorem spec_c1_amended (ts : List SWThread)
    (h : ∀ t ∈ ts, t.pc = SWPc.start) (sched : List Nat) :
    (swRun ⟨none, CacheEntry.pendingEntry, 0, ts⟩ sched).fCalls ≤ 1 := by
  have hcc := swCC_all_start ts h
  have hinv : SWInv ⟨none, CacheEntry.pendingEntry, 0, ts⟩ := by
    constructor
    · intro _
      exact ⟨rfl, hcc⟩
    · show 0 + swCC ts ≤ 1
      omega
  have hrun := swRun_inv sched _ hinv
  have h2 := hrun.2
  omega

/-- Witness for the amended C1 at two callers and a six-step schedule. -/
theorem spec_c1_amended_witness :
    (∀ t ∈ [(⟨5, SWPc.start⟩ : SWThread), ⟨7, SWPc.start⟩], t.pc = SWPc.start) ∧
      (swRun ⟨none, CacheEntry.pendingEntry, 0,
          [⟨5, SWPc.start⟩, ⟨7, SWPc.start⟩]⟩ [0, 1, 0, 1, 0, 1]).fCalls ≤ 1 :=
  ⟨by decide,
   spec_c1_amended [⟨5, SWPc.start⟩, ⟨7, SWPc.start⟩] (by decide) [0, 1, 0, 1, 0, 1]⟩

/-- C2.  PyCacheEntry::ready does set the value and the ready flag, and
py_call follows it with notify_all.  But the result-publication step of
SimpleWaiter::call_with_cache (lib.rs lines 168-171) only inserts
Ready(result) into the map and calls notify_all: evaluating the
publication step on a publishing owner shows the handle record is left
exactly as created, value None and ready false, so the woken waiters of
lines 151-153 re-enter the wait forever. -/
theorem spec_c2_eval :
    PyCacheEntry.setReady PyCacheEntry.pending 7 = PyCacheEntry.new (some 7) true ∧
    swStep ⟨some EntryState.Pending, CacheEntry.pendingEntry, 1,
        [⟨7, SWPc.publishing 7⟩]⟩ 0 =
      ⟨some (EntryState.Ready 7), CacheEntry.pendingEntry, 1,
        [⟨7, SWPc.finished (SWOutcome.returned 7)⟩]⟩ ∧
    CacheEntry.pendingEntry.ready = false ∧
    CacheEntry.pendingEntry.value = none :=
  ⟨rfl, rfl, rfl, rfl⟩

/-- C3.  In both SimpleWaiter::call_with_cache and PyCache::py_call the
store lock is indeed released before the computation call-out (the
invoke events below execute with the store mutex free), but in the
Pending paths of both functions the caller blocks on the condition
variable while the store guard acquired at lib.rs 142 / py_waiter.rs 59
is still live: the condWait events execute with the store mutex held. -/
theorem spec_c3_eval :
    swTracePending.get? 2 = some Ev.condWait ∧
    storeHeldAt swTracePending 2 = true ∧
    pyTracePendingTimeout.get? 2 = some Ev.condWait ∧
    storeHeldAt pyTracePendingTimeout 2 = true ∧
    swTraceMiss.get? 2 = some Ev.invoke ∧
    storeHeldAt swTraceMiss 2 = false ∧
    pyTraceMiss.get? 2 = some Ev.invoke ∧
    storeHeldAt pyTraceMiss 2 = false ∧
    pyTracePendingTimeout.get? 5 = some Ev.invoke ∧
    storeHeldAt pyTracePendingTimeout 5 = false ∧
    pyTraceReady.count Ev.condWait = 0 := by decide

/-- Initial configuration for the C4 counterexample: two callers of the
same key, the first computing 1, the second computing 2. -/
def c4Init : PyConfig :=
  ⟨[], [], 0,
   [⟨"k", true, true, Except.ok 1, PyPc.start⟩,
    ⟨"k", true, true, Except.ok 2, PyPc.start⟩]⟩

/-- Schedule prefix for C4: caller 0 wins the key and starts computing;
caller 1 finds the entry Pending and its bounded wait then times out. -/
def c4Pre : List PyOp :=
  [PyOp.callOp 0 PyOracle.check, PyOp.callOp 1 PyOracle.check,
   PyOp.callOp 1 PyOracle.timeoutWake]

/-- Full C4 schedule: after the timeout, caller 1 computes, publishes
and promotes its own result, then caller 0 finishes as well. -/
def c4Sched : List PyOp :=
  c4Pre ++
  [PyOp.callOp 1 PyOracle.check, PyOp.callOp 1 PyOracle.check,
   PyOp.callOp 1 PyOracle.check, PyOp.callOp 0 PyOracle.check,
   PyOp.callOp 0 PyOracle.check, PyOp.callOp 0 PyOracle.check]

/-- C4, counterexample.  The claim says a timed-out waiter fails with a
WaitTimeout error and neither starts a second computation nor replaces
the Pending map entry.  In the code the timeout path breaks out of the
wait loop and falls through to the absent-key code: right after the
timeout the map entry for the key has been replaced by a fresh Pending
handle (index 1, not the original 0), after the full run both Python
callables have been invoked (computeCount = 2), and the timed-out caller
finishes with its own computed value 2 - py_call has no error return at
all. -/
theorem spec_c4_counterexample :
    alookup (pyRun c4Init c4Pre).map "k" = some (PyEntryState.Pending 1) ∧
    (pyRun c4Init c4Sched).computeCount = 2 ∧
    (pyRun c4Init c4Sched).threads.get? 1 =
      some ⟨"k", true, true, Except.ok 2,
        PyPc.finished (PyOutcome.returned 2)⟩ :=
  ⟨rfl, rfl, rfl⟩

/-- C4, amended: when the bounded wait of a caller on a Pending handle
elapses with the handle still not ready, PyCache::py_call does not
return an error (its return type has no error case).  The caller falls
through to the absent-key code: it replaces the Pending map entry of the
key with a fresh Pending handle and proceeds to invoke the computation
itself, later publishing and returning its own result.  The original
handle object itself is left unchanged by the replacement (the original
owner still holds it). -/
theorem spec_c4_amended (m : List (String × PyEntryState))
    (hs : List PyCacheEntry) (cc : Nat) (key : String) (aOk kOk : Bool)
    (fres : Except String Nat) (hId : Nat) (e : PyCacheEntry)
    (hgh : hs.get? hId = some e) (her : e.ready = false) :
    pyStep ⟨m, hs, cc, [⟨key, aOk, kOk, fres, PyPc.waiting hId⟩]⟩
        (PyOp.callOp 0 PyOracle.timeoutWake) =
      ⟨ainsert m key (PyEntryState.Pending hs.length),
        hs ++ [PyCacheEntry.pending], cc,
        [⟨key, aOk, kOk, fres, PyPc.computing hs.length⟩]⟩ ∧
    (hs ++ [PyCacheEntry.pending]).get? hId = some e := by
  have hgh2 : hs[hId]? = some e := by
    rw [← List.get?_eq_getElem?]; exact hgh
  constructor
  · simp [pyStep, pyThreadStep, pySetPc, hgh2, her]
  · exact getq_append_left hs _ hId e hgh

/-- Witness for the amended C4 at a concrete pending configuration. -/
theorem spec_c4_amended_witness :
    ([PyCacheEntry.pending].get? 0 = some PyCacheEntry.pending ∧
      PyCacheEntry.pending.ready = false) ∧
      (pyStep ⟨[("k", PyEntryState.Pending 0)], [PyCacheEntry.pending], 0,
          [⟨"k", true, true, Except.ok 2, PyPc.waiting 0⟩]⟩
          (PyOp.callOp 0 PyOracle.timeoutWake) =
        ⟨[("k", PyEntryState.Pending 1)],
          [PyCacheEntry.pending, PyCacheEntry.pending], 0,
          [⟨"k", true, true, Except.ok 2, PyPc.computing 1⟩]⟩ ∧
      ([PyCacheEntry.pending] ++ [PyCacheEntry.pending]).get? 0 =
        some PyCacheEntry.pending) :=
  ⟨⟨rfl, rfl⟩,
   spec_c4_amended [("k", PyEntryState.Pending 0)] [PyCacheEntry.pending] 0
     "k" true true (Except.ok 2) 0 PyCacheEntry.pending rfl rfl⟩

/-- C5, counterexample.  The claim says every failure of the supplied
computation degrades to an error return in all four variants.  In
PyCache::py_call a raising Python callable hits the
.expect("PyCall failed") of line 121: the caller ends panicked, not
with an error value - py_call has no error return at all. -/
theorem spec_c5_counterexample :
    (pyRun ⟨[], [], 0, [⟨"k", true, true, Except.error "boom", PyPc.start⟩]⟩
        [PyOp.callOp 0 PyOracle.check, PyOp.callOp 0 PyOracle.check]).threads =
      [⟨"k", true, true, Except.error "boom",
        PyPc.finished (PyOutcome.panicked "PyCall failed")⟩] := rfl

/-- C5, amended: RustFlight::py_call and RustMethods::call do degrade to
error returns (a failing computation propagates as Err from py_call, and
a poisoned read lock is an Err from call), but PyCache::py_call panics
when the supplied computation fails. -/
theorem spec_c5_amended (cache : List (String × DynVal)) (key : String)
    (e msg : String) (tagT : Nat) (f : Unit → Nat)
    (hmiss : alookup cache key = none) :
    RustFlight.py_call cache true true true true (fun _ => Except.error e) key =
      ⟨Except.error e, cache, true⟩ ∧
    RustMethods.call cache false true tagT f key =
      ⟨Except.error "Failed to get read lock!", cache, false⟩ ∧
    (pyRun ⟨[], [], 0, [⟨key, true, true, Except.error msg, PyPc.start⟩]⟩
        [PyOp.callOp 0 PyOracle.check, PyOp.callOp 0 PyOracle.check]).threads =
      [⟨key, true, true, Except.error msg,
        PyPc.finished (PyOutcome.panicked "PyCall failed")⟩] := by
  refine ⟨?_, rfl, rfl⟩
  simp [RustFlight.py_call, hmiss]

/-- Witness for the amended C5 at an empty cache. -/
theorem spec_c5_amended_witness :
    (alookup ([] : List (String × DynVal)) "k" = none) ∧
      (RustFlight.py_call [] true true true true (fun _ => Except.error "x") "k" =
          ⟨Except.error "x", [], true⟩ ∧
        RustMethods.call [] false true 0 (fun _ => 3) "k" =
          ⟨Except.error "Failed to get read lock!", [], false⟩ ∧
        (pyRun ⟨[], [], 0, [⟨"k", true, true, Except.error "y", PyPc.start⟩]⟩
            [PyOp.callOp 0 PyOracle.check, PyOp.callOp 0 PyOracle.check]).threads =
          [⟨"k", true, true, Except.error "y",
            PyPc.finished (PyOutcome.panicked "PyCall failed")⟩]) :=
  ⟨rfl, spec_c5_amended [] "k" "x" "y" 0 (fun _ => 3) rfl⟩

/-- C6, counterexample.  The claim says a type-mismatched Ready read
fails with a distinct error kind in both RustMethods::call and
RustFlight::py_call, with no silent recomputation overwriting the stored
value.  In RustFlight::py_call a cached value whose type is not
Py<PyAny> (tag 1 here) fails the downcast, which is only logged: the
call silently recomputes (invoked = true), returns Ok with the fresh
value, and overwrites the stored value. -/
theorem spec_c6_counterexample :
    RustFlight.py_call [("k", ⟨1, 42⟩)] true true true true
        (fun _ => Except.ok 7) "k" =
      ⟨Except.ok 7, [("k", ⟨pyAnyTag, 7⟩)], true⟩ := rfl

/-- C6, amended: RustMethods::call does fail a mismatched Ready read
with the distinct error "Cached value has unexpected type!" without
invoking the computation; RustFlight::py_call instead logs the failed
downcast, silently recomputes and overwrites the stored value with the
fresh result. -/
theorem spec_c6_amended (cache : List (String × DynVal)) (key : String)
    (d : DynVal) (tagT w : Nat) (f : Unit → Nat) (wOk : Bool)
    (hhit : alookup cache key = some d) (hneT : d.tag ≠ tagT)
    (hnePy : d.tag ≠ pyAnyTag) :
    RustMethods.call cache true wOk tagT f key =
      ⟨Except.error "Cached value has unexpected type!", cache, false⟩ ∧
    RustFlight.py_call cache true true true true (fun _ => Except.ok w) key =
      ⟨Except.ok w, ainsert cache key ⟨pyAnyTag, w⟩, true⟩ := by
  constructor
  · simp [RustMethods.call, hhit, hneT]
  · simp [RustFlight.py_call, hhit, hnePy]

/-- Witness for the amended C6 at a concrete mismatched cache entry. -/
theorem spec_c6_amended_witness :
    (alookup [("k", (⟨1, 5⟩ : DynVal))] "k" = some ⟨1, 5⟩ ∧
      (⟨1, 5⟩ : DynVal).tag ≠ 2 ∧ (⟨1, 5⟩ : DynVal).tag ≠ pyAnyTag) ∧
      (RustMethods.call [("k", ⟨1, 5⟩)] true true 2 (fun _ => 0) "k" =
          ⟨Except.error "Cached value has unexpected type!", [("k", ⟨1, 5⟩)], false⟩ ∧
        RustFlight.py_call [("k", ⟨1, 5⟩)] true true true true
            (fun _ => Except.ok 9) "k" =
          ⟨Except.ok 9, ainsert [("k", ⟨1, 5⟩)] "k" ⟨pyAnyTag, 9⟩, true⟩) :=
  ⟨⟨rfl, by decide, by decide⟩,
   spec_c6_amended [("k", ⟨1, 5⟩)] "k" ⟨1, 5⟩ 2 9 (fun _ => 0) true rfl
     (by decide) (by decide)⟩

/-- C7.  Once an entry is Ready, a subsequent call returns the stored
value in one step without invoking the computation and without entering
a wait, in each variant: RustMethods::call with a matching type tag
returns the cached value with the cache unchanged and the closure not
invoked; a SimpleWaiter caller at its first critical section finishes
immediately on a Ready slot with fCalls unchanged; a PyCache caller at
its first critical section finishes immediately on a Ready entry with
map, handles and computeCount unchanged. -/
theorem spec_c7 (cache : List (String × DynVal)) (key1 : String)
    (tagT v1 : Nat) (f : Unit → Nat) (wOk : Bool)
    (hhit : alookup cache key1 = some ⟨tagT, v1⟩)
    (hdl : CacheEntry) (fc fv v2 : Nat)
    (m : List (String × PyEntryState)) (hs : List PyCacheEntry) (cc : Nat)
    (key3 : String) (aOk kOk : Bool) (fres : Except String Nat)
    (e : PyCacheEntry) (v3 : Nat)
    (hlook : alookup m key3 = some (PyEntryState.Ready e))
    (hval : e.value = some v3) :
    RustMethods.call cache true wOk tagT f key1 = ⟨Except.ok v1, cache, false⟩ ∧
    swStep ⟨some (EntryState.Ready v2), hdl, fc, [⟨fv, SWPc.start⟩]⟩ 0 =
      ⟨some (EntryState.Ready v2), hdl, fc,
        [⟨fv, SWPc.finished (SWOutcome.returned v2)⟩]⟩ ∧
    pyStep ⟨m, hs, cc, [⟨key3, aOk, kOk, fres, PyPc.start⟩]⟩
        (PyOp.callOp 0 PyOracle.check) =
      ⟨m, hs, cc, [⟨key3, aOk, kOk, fres,
        PyPc.finished (PyOutcome.returned v3)⟩]⟩ := by
  refine ⟨?_, rfl, ?_⟩
  · simp [RustMethods.call, hhit]
  · simp [pyStep, pyThreadStep, pySetPc, hlook, hval]

/-- Witness for C7 at concrete Ready entries in all three variants. -/
theorem spec_c7_witness :
    (alookup [("a", (⟨3, 11⟩ : DynVal))] "a" = some ⟨3, 11⟩ ∧
      alookup [("b", PyEntryState.Ready ⟨some 6, true⟩)] "b" =
        some (PyEntryState.Ready ⟨some 6, true⟩) ∧
      (⟨some 6, true⟩ : PyCacheEntry).value = some 6) ∧
      (RustMethods.call [("a", ⟨3, 11⟩)] true true 3 (fun _ => 0) "a" =
          ⟨Except.ok 11, [("a", ⟨3, 11⟩)], false⟩ ∧
        swStep ⟨some (EntryState.Ready 9), CacheEntry.pendingEntry, 0,
            [⟨4, SWPc.start⟩]⟩ 0 =
          ⟨some (EntryState.Ready 9), CacheEntry.pendingEntry, 0,
            [⟨4, SWPc.finished (SWOutcome.returned 9)⟩]⟩ ∧
        pyStep ⟨[("b", PyEntryState.Ready ⟨some 6, true⟩)], [], 0,
            [⟨"b", true, true, Except.ok 0, PyPc.start⟩]⟩
            (PyOp.callOp 0 PyOracle.check) =
          ⟨[("b", PyEntryState.Ready ⟨some 6, true⟩)], [], 0,
            [⟨"b", true, true, Except.ok 0,
              PyPc.finished (PyOutcome.returned 6)⟩]⟩) :=
  ⟨⟨rfl, rfl, rfl⟩,
   spec_c7 [("a", ⟨3, 11⟩)] "a" 3 11 (fun _ => 0) true rfl
     CacheEntry.pendingEntry 0 4 9
     [("b", PyEntryState.Ready ⟨some 6, true⟩)] [] 0 "b" true true
     (Except.ok 0) ⟨some 6, true⟩ 6 rfl rfl⟩

/-- C8.  After PyCache::drop evicts a Ready entry, the next py_call for
that key with a new computation runs that computation (computeCount goes
from 0 to 1), publishes it, and returns its result w - not the stale
value v - for every stale v and fresh w. -/
theorem spec_c8 (v w : Nat) :
    pyRun ⟨[("k", PyEntryState.Ready (PyCacheEntry.new (some v) true))], [], 0,
        [⟨"k", true, true, Except.ok w, PyPc.start⟩]⟩
      [PyOp.dropOp "k", PyOp.callOp 0 PyOracle.check,
       PyOp.callOp 0 PyOracle.check, PyOp.callOp 0 PyOracle.check,
       PyOp.callOp 0 PyOracle.check] =
      ⟨[("k", PyEntryState.Ready (PyCacheEntry.new (some w) true))],
        [PyCacheEntry.new (some w) true], 1,
        [⟨"k", true, true, Except.ok w,
          PyPc.finished (PyOutcome.returned w)⟩]⟩ := rfl

/-- C9.  For every set of callers and every interleaving of py_call
steps and drop operations from an empty cache, every Ready map entry
holds Some value, and no caller ever reaches the expect branches
"Ready value was None.", "None after ready!" or
"Guard is none after ready!": the only writes that make a map entry
Ready or a handle ready (PyCacheEntry::ready at lines 124-126 and the
final insert at lines 130-137) both store Some. -/
theorem spec_c9 (ts : List PyThread) (h : ∀ t ∈ ts, t.pc = PyPc.start)
    (sched : List PyOp) :
    pyMapInv (pyRun ⟨[], [], 0, ts⟩ sched).map ∧
      pyNoBad (pyRun ⟨[], [], 0, ts⟩ sched).threads := by
  have hinv : PyInv ⟨[], [], 0, ts⟩ := by
    refine ⟨?_, ?_, ?_⟩
    · intro p hp e hpe
      simp at hp
    · intro e he hr
      simp at he
    · intro t ht
      rw [h t ht]
      rfl
  have hrun := pyRun_inv sched _ hinv
  exact ⟨hrun.1, hrun.2.2⟩

/-- Witness for C9 at one caller and a four-step schedule with an
eviction. -/
theorem spec_c9_witness :
    (∀ t ∈ [(⟨"k", true, true, Except.ok 5, PyPc.start⟩ : PyThread)],
        t.pc = PyPc.start) ∧
      (pyMapInv (pyRun ⟨[], [], 0,
          [⟨"k", true, true, Except.ok 5, PyPc.start⟩]⟩
          [PyOp.callOp 0 PyOracle.check, PyOp.callOp 0 PyOracle.check,
           PyOp.callOp 0 PyOracle.check, PyOp.callOp 0 PyOracle.check,
           PyOp.dropOp "k"]).map ∧
        pyNoBad (pyRun ⟨[], [], 0,
          [⟨"k", true, true, Except.ok 5, PyPc.start⟩]⟩
          [PyOp.callOp 0 PyOracle.check, PyOp.callOp 0 PyOracle.check,
           PyOp.callOp 0 PyOracle.check, PyOp.callOp 0 PyOracle.check,
           PyOp.dropOp "k"]).threads) :=
  ⟨by decide,
   spec_c9 [⟨"k", true, true, Except.ok 5, PyPc.start⟩] (by decide)
     [PyOp.callOp 0 PyOracle.check, PyOp.callOp 0 PyOracle.check,
      PyOp.callOp 0 PyOracle.check, PyOp.callOp 0 PyOracle.check,
      PyOp.dropOp "k"]⟩

/-- C10.  When the key is absent and the write lock is poisoned,
RustMethods::call still returns Ok with the freshly computed value: the
failed store is only logged (lib.rs lines 94-99), the cache is left
unchanged, and a subsequent call for the same key invokes its
computation again. -/
theorem spec_c10 (cache : List (String × DynVal)) (key : String)
    (tagT : Nat) (f g : Unit → Nat) (hmiss : alookup cache key = none) :
    RustMethods.call cache true false tagT f key =
      ⟨Except.ok (f ()), cache, true⟩ ∧
    (RustMethods.call
        (RustMethods.call cache true false tagT f key).cache
        true true tagT g key).invoked = true := by
  have h1 : RustMethods.call cache true false tagT f key =
      ⟨Except.ok (f ()), cache, true⟩ := by
    simp [RustMethods.call, hmiss]
  refine ⟨h1, ?_⟩
  rw [h1]
  simp [RustMethods.call, hmiss]

/-- Witness for C10 at an empty cache. -/
theorem spec_c10_witness :
    (alookup ([] : List (String × DynVal)) "k" = none) ∧
      (RustMethods.call [] true false 0 (fun _ => 8) "k" =
          ⟨Except.ok 8, [], true⟩ ∧
        (RustMethods.call
            (RustMethods.call [] true false 0 (fun _ => 8) "k").cache
            true true 0 (fun _ => 9) "k").invoked = true) :=
  ⟨rfl, spec_c10 [] "k" 0 (fun _ => 8) (fun _ => 9) rfl⟩
